import Mathlib

/-!
Verification of the Bastion enforcement core (src-tauri/src of the bastion
repository): a shallow embedding in Lean 4 of the session/Pomodoro state
machine (session.rs), the Tauri command layer with its hardcore-lock guards
(lib.rs), the process-enforcer whitelist logic and the hosts-file blocklist
synchronizer (blocking.rs), and the TLS ClientHello SNI extractor (server.rs).

Modelling conventions:
* Stateful Rust code becomes explicit state passing: a `SessionManager` /
  `AppState` value goes in, an updated value comes out.  `Local::now()` is an
  explicit `now : Int` argument (Unix seconds, as in the source).
* Fallible code (`Result<T, String>`) becomes `Except String T`.  An
  operation that returns `Except.error` performs no state change, which
  models the Rust early `return Err(...)` before any mutation.
* The SQLite store (storage.rs) is modelled as in-memory lists with an
  auto-increment id counter; `INSERT` appends, `DELETE ... WHERE id = ?`
  filters, `UPDATE ... WHERE id = ?` maps.
* Hosts-file text is a `List Char`; Rust `str::find` byte indices become
  character indices, which compose identically with the slicing the code
  performs.  A Rust slice-bounds panic (possible in `get_bastion_section`
  when the end marker is found before the start marker) is modelled as
  `Option.none`.
* Bytes are `Nat` values below 256; `(hi as usize) << 8 | lo` becomes
  `hi * 256 + lo`, which coincides for byte-sized inputs.
-/

namespace Bastion

/-! ### session.rs : data model -/

/-- Rust `enum SessionType` (session.rs). -/
inductive SessionType where
  | Manual
  | Scheduled
  | Pomodoro
deriving DecidableEq

/-- Rust `struct ActiveSession` (session.rs); timestamps are Unix seconds. -/
structure ActiveSession where
  id : String
  name : String
  start_time : Int
  end_time : Int
  hardcore : Bool
  session_type : SessionType
deriving DecidableEq

/-- Rust `enum PomodoroPhase` (session.rs). -/
inductive PomodoroPhase where
  | Work
  | Break
  | LongBreak
deriving DecidableEq

/-- Rust `struct PomodoroState` (session.rs); durations in seconds. -/
structure PomodoroState where
  phase : PomodoroPhase
  work_duration : Int
  break_duration : Int
  long_break_duration : Int
  sessions_until_long_break : Int
  completed_sessions : Int
  time_remaining : Int
  is_running : Bool
deriving DecidableEq

/-- Rust `impl Default for PomodoroState` (session.rs). -/
def PomodoroState.default : PomodoroState where
  phase := PomodoroPhase.Work
  work_duration := 25 * 60
  break_duration := 5 * 60
  long_break_duration := 15 * 60
  sessions_until_long_break := 4
  completed_sessions := 0
  time_remaining := 25 * 60
  is_running := false

/-- Rust `struct SessionManager` (session.rs): the mutex-guarded fields,
with the `AtomicBool` hardcore lock as a plain `Bool`. -/
structure SessionManager where
  active_session : Option ActiveSession
  pomodoro_state : PomodoroState
  is_hardcore_locked : Bool
deriving DecidableEq

/-- Rust `SessionManager::new` (session.rs). -/
def SessionManager.new : SessionManager where
  active_session := none
  pomodoro_state := PomodoroState.default
  is_hardcore_locked := false

/-! ### session.rs : operations -/

/-- Rust `SessionManager::start_session` (session.rs).  `now` stands for
`Local::now().timestamp()`.  Returns the updated manager together with the
session value the Rust method returns. -/
def SessionManager.start_session (m : SessionManager) (now : Int)
    (name : String) (duration_minutes : Int) (hardcore : Bool) :
    SessionManager × ActiveSession :=
  let session : ActiveSession :=
    { id := "session_" ++ toString now
      name := name
      start_time := now
      end_time := now + duration_minutes * 60
      hardcore := hardcore
      session_type := SessionType.Manual }
  let locked := if hardcore then true else m.is_hardcore_locked
  ({ m with active_session := some session, is_hardcore_locked := locked },
    session)

/-- Rust `SessionManager::end_session` (session.rs).  An early
`return Err(..)` leaves the Rust state untouched, which the `Except.error`
arm models. -/
def SessionManager.end_session (m : SessionManager) (now : Int) :
    Except String SessionManager :=
  match m.active_session with
  | some session =>
      if session.hardcore ∧ now < session.end_time then
        Except.error "Cannot end hardcore session before time expires"
      else
        Except.ok { m with active_session := none, is_hardcore_locked := false }
  | none =>
      Except.ok { m with active_session := none, is_hardcore_locked := false }

/-- Rust `SessionManager::get_time_remaining` (session.rs). -/
def SessionManager.get_time_remaining (m : SessionManager) (now : Int) :
    Option Int :=
  match m.active_session with
  | some session => some (max (session.end_time - now) 0)
  | none => none

/-- Rust `SessionManager::pomodoro_start` (session.rs). -/
def SessionManager.pomodoro_start (m : SessionManager) : SessionManager :=
  { m with pomodoro_state := { m.pomodoro_state with is_running := true } }

/-- Rust `SessionManager::pomodoro_pause` (session.rs). -/
def SessionManager.pomodoro_pause (m : SessionManager) : SessionManager :=
  { m with pomodoro_state := { m.pomodoro_state with is_running := false } }

/-- Rust `SessionManager::pomodoro_reset` (session.rs). -/
def SessionManager.pomodoro_reset (m : SessionManager) : SessionManager :=
  let s := m.pomodoro_state
  let t := match s.phase with
    | PomodoroPhase.Work => s.work_duration
    | PomodoroPhase.Break => s.break_duration
    | PomodoroPhase.LongBreak => s.long_break_duration
  { m with pomodoro_state := { s with time_remaining := t, is_running := false } }

/-- Rust `SessionManager::pomodoro_tick` (session.rs): one elapsed second.
Returns the updated manager and the phase that just completed, if any. -/
def SessionManager.pomodoro_tick (m : SessionManager) :
    SessionManager × Option PomodoroPhase :=
  let s := m.pomodoro_state
  if !s.is_running then (m, none)
  else if s.time_remaining > 0 then
    ({ m with pomodoro_state := { s with time_remaining := s.time_remaining - 1 } },
      none)
  else
    let completed := s.phase
    match s.phase with
    | PomodoroPhase.Work =>
        let cs := s.completed_sessions + 1
        if cs % s.sessions_until_long_break == 0 then
          ({ m with pomodoro_state :=
              { s with completed_sessions := cs
                       phase := PomodoroPhase.LongBreak
                       time_remaining := s.long_break_duration } },
            some completed)
        else
          ({ m with pomodoro_state :=
              { s with completed_sessions := cs
                       phase := PomodoroPhase.Break
                       time_remaining := s.break_duration } },
            some completed)
    | PomodoroPhase.Break =>
        ({ m with pomodoro_state :=
            { s with phase := PomodoroPhase.Work
                     time_remaining := s.work_duration } },
          some completed)
    | PomodoroPhase.LongBreak =>
        ({ m with pomodoro_state :=
            { s with phase := PomodoroPhase.Work
                     time_remaining := s.work_duration } },
          some completed)

/-- Rust `SessionManager::pomodoro_configure` (session.rs). -/
def SessionManager.pomodoro_configure (m : SessionManager)
    (work short_break long_break : Int) (sessions : Int) : SessionManager :=
  let s := m.pomodoro_state
  let s := { s with work_duration := work
                    break_duration := short_break
                    long_break_duration := long_break
                    sessions_until_long_break := sessions }
  if s.phase = PomodoroPhase.Work then
    { m with pomodoro_state := { s with time_remaining := work } }
  else
    { m with pomodoro_state := s }

/-! ### storage.rs : data model (in-memory list semantics of the SQLite store) -/

/-- Rust `struct BlockedSite` (storage.rs). -/
structure BlockedSite where
  id : Int
  domain : String
  category : String
  enabled : Bool
  created_at : String
deriving DecidableEq

/-- Rust `struct BlockedApp` (storage.rs). -/
structure BlockedApp where
  id : Int
  name : String
  process_name : String
  category : String
  enabled : Bool
  created_at : String
deriving DecidableEq

/-- Rust `struct Session` (storage.rs): a scheduled-session rule row. -/
structure StoredSession where
  id : Int
  name : String
  start_time : String
  end_time : String
  days : String
  hardcore : Bool
  enabled : Bool
deriving DecidableEq

/-- The SQLite tables the hardcore-lock claims touch, as lists, with the
AUTOINCREMENT rowid counter made explicit. -/
structure Database where
  blocked_sites : List BlockedSite
  blocked_apps : List BlockedApp
  sessions : List StoredSession
  next_id : Int
deriving DecidableEq

/-- Rust `Database::add_blocked_site` (storage.rs): `INSERT` plus
`last_insert_rowid`. -/
def Database.add_blocked_site (db : Database) (domain category : String) :
    Database × Int :=
  let id := db.next_id
  ({ db with
      blocked_sites := db.blocked_sites ++
        [{ id := id, domain := domain, category := category,
           enabled := true, created_at := "" }]
      next_id := id + 1 }, id)

/-- Rust `Database::toggle_blocked_site` (storage.rs). -/
def Database.toggle_blocked_site (db : Database) (id : Int) (enabled : Bool) :
    Database :=
  { db with blocked_sites :=
      db.blocked_sites.map (fun s => if s.id = id then { s with enabled := enabled } else s) }

/-- Rust `Database::delete_blocked_site` (storage.rs). -/
def Database.delete_blocked_site (db : Database) (id : Int) : Database :=
  { db with blocked_sites := db.blocked_sites.filter (fun s => s.id ≠ id) }

/-- Rust `Database::add_blocked_app` (storage.rs). -/
def Database.add_blocked_app (db : Database) (name process_name category : String) :
    Database × Int :=
  let id := db.next_id
  ({ db with
      blocked_apps := db.blocked_apps ++
        [{ id := id, name := name, process_name := process_name,
           category := category, enabled := true, created_at := "" }]
      next_id := id + 1 }, id)

/-- Rust `Database::toggle_blocked_app` (storage.rs). -/
def Database.toggle_blocked_app (db : Database) (id : Int) (enabled : Bool) :
    Database :=
  { db with blocked_apps :=
      db.blocked_apps.map (fun a => if a.id = id then { a with enabled := enabled } else a) }

/-- Rust `Database::delete_blocked_app` (storage.rs). -/
def Database.delete_blocked_app (db : Database) (id : Int) : Database :=
  { db with blocked_apps := db.blocked_apps.filter (fun a => a.id ≠ id) }

/-- Rust `Database::add_session` (storage.rs). -/
def Database.add_session (db : Database) (s : StoredSession) : Database × Int :=
  let id := db.next_id
  ({ db with sessions := db.sessions ++ [{ s with id := id }],
             next_id := id + 1 }, id)

/-- Rust `Database::delete_session` (storage.rs). -/
def Database.delete_session (db : Database) (id : Int) : Database :=
  { db with sessions := db.sessions.filter (fun s => s.id ≠ id) }

/-! ### lib.rs : the Tauri command layer with its hardcore-lock guards -/

/-- Rust `struct AppState` (lib.rs), restricted to the store and the
session manager (the `app_handle` is windowing shell, out of core scope). -/
structure AppState where
  db : Database
  session_manager : SessionManager
deriving DecidableEq

/-- Rust command `add_blocked_site` (lib.rs): guarded by the hardcore lock;
the hosts-file sync that follows the insert never fails the command. -/
def add_blocked_site (st : AppState) (domain category : String) :
    Except String (AppState × Int) :=
  if st.session_manager.is_hardcore_locked then
    Except.error "Cannot modify block list during a hardcore session"
  else
    let (db, id) := st.db.add_blocked_site domain category
    Except.ok ({ st with db := db }, id)

/-- Rust command `toggle_blocked_site` (lib.rs): guarded by the hardcore lock. -/
def toggle_blocked_site (st : AppState) (id : Int) (enabled : Bool) :
    Except String AppState :=
  if st.session_manager.is_hardcore_locked then
    Except.error "Cannot modify block list during a hardcore session"
  else
    Except.ok { st with db := st.db.toggle_blocked_site id enabled }

/-- Rust command `delete_blocked_site` (lib.rs): guarded by the hardcore lock. -/
def delete_blocked_site (st : AppState) (id : Int) : Except String AppState :=
  if st.session_manager.is_hardcore_locked then
    Except.error "Cannot modify block list during a hardcore session"
  else
    Except.ok { st with db := st.db.delete_blocked_site id }

/-- Rust command `add_blocked_app` (lib.rs): guarded by the hardcore lock. -/
def add_blocked_app (st : AppState) (name process_name category : String) :
    Except String (AppState × Int) :=
  if st.session_manager.is_hardcore_locked then
    Except.error "Cannot modify block list during a hardcore session"
  else
    let (db, id) := st.db.add_blocked_app name process_name category
    Except.ok ({ st with db := db }, id)

/-- Rust command `toggle_blocked_app` (lib.rs): guarded by the hardcore lock. -/
def toggle_blocked_app (st : AppState) (id : Int) (enabled : Bool) :
    Except String AppState :=
  if st.session_manager.is_hardcore_locked then
    Except.error "Cannot modify block list during a hardcore session"
  else
    Except.ok { st with db := st.db.toggle_blocked_app id enabled }

/-- Rust command `delete_blocked_app` (lib.rs): guarded by the hardcore lock. -/
def delete_blocked_app (st : AppState) (id : Int) : Except String AppState :=
  if st.session_manager.is_hardcore_locked then
    Except.error "Cannot modify block list during a hardcore session"
  else
    Except.ok { st with db := st.db.delete_blocked_app id }

/-- Rust command `add_session` (lib.rs): note that the source has NO
hardcore-lock guard on this command. -/
def add_session (st : AppState) (s : StoredSession) :
    Except String (AppState × Int) :=
  let (db, id) := st.db.add_session s
  Except.ok ({ st with db := db }, id)

/-- Rust command `delete_session` (lib.rs): note that the source has NO
hardcore-lock guard on this command. -/
def delete_session (st : AppState) (id : Int) : Except String AppState :=
  Except.ok { st with db := st.db.delete_session id }

/-- Rust command `pomodoro_start` (lib.rs): guarded by the hardcore lock. -/
def pomodoro_start (st : AppState) : Except String AppState :=
  if st.session_manager.is_hardcore_locked then
    Except.error "Cannot control timer during a hardcore session"
  else
    Except.ok { st with session_manager := st.session_manager.pomodoro_start }

/-- Rust command `pomodoro_pause` (lib.rs): guarded by the hardcore lock. -/
def pomodoro_pause (st : AppState) : Except String AppState :=
  if st.session_manager.is_hardcore_locked then
    Except.error "Cannot control timer during a hardcore session"
  else
    Except.ok { st with session_manager := st.session_manager.pomodoro_pause }

/-- Rust command `pomodoro_reset` (lib.rs): guarded by the hardcore lock. -/
def pomodoro_reset (st : AppState) : Except String AppState :=
  if st.session_manager.is_hardcore_locked then
    Except.error "Cannot control timer during a hardcore session"
  else
    Except.ok { st with session_manager := st.session_manager.pomodoro_reset }

/-- Rust command `pomodoro_configure` (lib.rs): returns `()` in the source
and has NO hardcore-lock guard; it always mutates the Pomodoro state. -/
def pomodoro_configure (st : AppState) (work short_break long_break : Int)
    (sessions : Int) : AppState :=
  { st with session_manager :=
      st.session_manager.pomodoro_configure work short_break long_break sessions }

/-! ### blocking.rs : the process enforcer and its safety whitelist -/

/-- Rust `SYSTEM_WHITELIST` (blocking.rs): the fixed compile-time set of
OS-critical process names. -/
def SYSTEM_WHITELIST : List String :=
  ["explorer.exe", "dwm.exe", "taskhostw.exe", "lsass.exe", "csrss.exe",
   "wininit.exe", "winlogon.exe", "services.exe", "System", "Registry",
   "smss.exe", "fontdrvhost.exe", "svchost.exe", "taskmgr.exe",
   "shellexperiencehost.exe", "searchhost.exe", "startmenuexperiencehost.exe"]

/-- Rust `str::to_lowercase()` as the source uses it: every name involved is
ASCII, where Unicode lowercasing and per-character ASCII lowercasing agree.
Defined over the character list so that it evaluates by kernel reduction. -/
def strLower (s : String) : String := String.mk (s.data.map Char.toLower)

/-- The per-process loop body of Rust `enforce_app_blocks` (blocking.rs):
walks the process-table snapshot accumulating the `killed_apps` vector.
Termination signals are OS effects; the returned list of reported names is
what the claims are about. -/
def enforceLoop (blocked_apps blocked_lower : List String) :
    List String → List String → List String
  | [], killed => killed
  | p :: ps, killed =>
      let process_name := strLower p
      if SYSTEM_WHITELIST.any (fun w => strLower w == process_name) then
        enforceLoop blocked_apps blocked_lower ps killed
      else if blocked_lower.contains process_name then
        match blocked_apps.find? (fun a => strLower a == process_name) with
        | some original =>
            if killed.contains original then
              enforceLoop blocked_apps blocked_lower ps killed
            else
              enforceLoop blocked_apps blocked_lower ps (killed ++ [original])
        | none => enforceLoop blocked_apps blocked_lower ps killed
      else
        enforceLoop blocked_apps blocked_lower ps killed

/-- Rust `enforce_app_blocks` (blocking.rs), with the process-table snapshot
given as the list of live process names (the snapshot the `sysinfo` refresh
produces). -/
def enforce_app_blocks (processes : List String) (blocked_apps : List String) :
    List String :=
  if blocked_apps.isEmpty then []
  else
    let blocked_lower := (blocked_apps.map (fun s => strLower s)).filter
      (fun s => ! SYSTEM_WHITELIST.any (fun w => strLower w == s))
    if blocked_lower.isEmpty then []
    else enforceLoop blocked_apps blocked_lower processes []

/-- A name is in the system whitelist, compared case-insensitively the way
the source compares (whitelist entry lowercased against lowercased name). -/
def isWhitelisted (n : String) : Prop :=
  ∃ w ∈ SYSTEM_WHITELIST, strLower w = strLower n

/-! ### blocking.rs : the hosts-file blocklist synchronizer

Hosts-file content is a `List Char`.  `leadsList n h` is the "`h` starts
with `n`" test and `strFind h n` the first-occurrence index search that
models Rust `str::find`. -/

/-- `leadsList n h` holds when `n` is a leading segment of `h`. -/
def leadsList : List Char → List Char → Bool
  | [], _ => true
  | _ :: _, [] => false
  | a :: as, b :: bs => a == b && leadsList as bs

/-- Rust `str::find(needle)` on `haystack`: the first index at which the
needle occurs. -/
def strFind (haystack needle : List Char) : Option Nat :=
  match haystack with
  | [] => if leadsList needle [] then some 0 else none
  | c :: t =>
      if leadsList needle (c :: t) then some 0
      else (strFind t needle).map (fun i => i + 1)

/-- Whether a character list ends with a newline character. -/
def endsWithNl : List Char → Bool
  | [] => false
  | [c] => c == '\n'
  | _ :: t => endsWithNl t

/-- Rust `BASTION_MARKER_START` (blocking.rs). -/
def BASTION_MARKER_START : List Char := "# === BASTION BLOCK START ===".toList

/-- Rust `BASTION_MARKER_END` (blocking.rs). -/
def BASTION_MARKER_END : List Char := "# === BASTION BLOCK END ===".toList

/-- The per-domain redirect lines of Rust `generate_block_entries`
(blocking.rs): four lines per domain, IPv4 bare, IPv4 www, IPv6 bare,
IPv6 www. -/
def entriesFor : List (List Char) → List Char
  | [] => []
  | d :: ds =>
      "127.0.0.1 ".toList ++ d ++ ['\n'] ++
      "127.0.0.1 www.".toList ++ d ++ ['\n'] ++
      "::1 ".toList ++ d ++ ['\n'] ++
      "::1 www.".toList ++ d ++ ['\n'] ++
      entriesFor ds

/-- Rust `generate_block_entries` (blocking.rs): start marker, newline, the
per-domain lines, end marker (no trailing newline inside the block). -/
def generate_block_entries (domains : List (List Char)) : List Char :=
  BASTION_MARKER_START ++ ['\n'] ++ entriesFor domains ++ BASTION_MARKER_END

/-- Rust `get_bastion_section` (blocking.rs): independently finds the first
occurrence of each marker and returns `(start_idx, end_idx + len(END))`.
The slice the Rust function also builds panics when the computed start
exceeds the computed end; the caller below models that panic as `none`. -/
def get_bastion_section (contents : List Char) : Option (Nat × Nat) :=
  match strFind contents BASTION_MARKER_START,
        strFind contents BASTION_MARKER_END with
  | some s, some e => some (s, e + BASTION_MARKER_END.length)
  | _, _ => none

/-- The tail of Rust `update_blocked_websites` (blocking.rs): append a fresh
fenced block ("\n\n" + block + "\n") when the domain list is non-empty. -/
def appendBlock (contents : List Char) (domains : List (List Char)) :
    List Char :=
  if domains.isEmpty then contents
  else contents ++ ('\n' :: '\n' :: generate_block_entries domains) ++ ['\n']

/-- Rust `update_blocked_websites` (blocking.rs): excise any existing fenced
section, then append the fresh block.  The read and the final write are I/O;
the returned value is the content written back.  `none` models the Rust
slice panic (start marker found after end marker). -/
def update_blocked_websites (contents : List Char)
    (domains : List (List Char)) : Option (List Char) :=
  match get_bastion_section contents with
  | some (s, e) =>
      if s ≤ e then
        some (appendBlock (contents.take s ++ contents.drop e) domains)
      else none
  | none => some (appendBlock contents domains)

/-! ### server.rs : the TLS ClientHello SNI extractor

The byte buffer is a `List Nat` of values below 256; out-of-range reads
cannot occur because the source bound-checks before each index (mirrored
here by `List.getD` behind the same guards).  The extracted hostname is
returned as its raw byte slice (the source converts it lossily to a string,
which is the identity on the ASCII hostnames at issue). -/

/-- The extension-scanning loop of Rust `parse_sni` (server.rs). -/
def sniLoop (data : List Nat) (pos : Nat) : Option (List Nat) :=
  if h : pos + 4 ≤ data.length then
    let ext_type := data.getD pos 0 * 256 + data.getD (pos + 1) 0
    let ext_len := data.getD (pos + 2) 0 * 256 + data.getD (pos + 3) 0
    if ext_type = 0 then
      if data.length < pos + 4 + 2 then none
      else if data.length < pos + 4 + 2 + 3 then none
      else
        let name_type := data.getD (pos + 4 + 2) 0
        if name_type = 0 then
          let name_len := data.getD (pos + 4 + 2 + 1) 0 * 256 +
            data.getD (pos + 4 + 2 + 2) 0
          if pos + 4 + 2 + 3 + name_len ≤ data.length then
            some ((data.drop (pos + 4 + 2 + 3)).take name_len)
          else sniLoop data (pos + 4 + 2 + 3 + ext_len)
        else sniLoop data (pos + 4 + 2 + ext_len)
    else sniLoop data (pos + 4 + ext_len)
  else none
termination_by data.length + 4 - pos
decreasing_by all_goals omega

/-- Rust `parse_sni` (server.rs), including its fixed-offset session-id
read at index 38 (`pos = 43 + data[38]`). -/
def parse_sni (data : List Nat) : Option (List Nat) :=
  if data.length < 43 then none
  else if data.getD 0 0 ≠ 0x16 then none
  else if data.getD 5 0 ≠ 0x01 then none
  else if data.length ≤ 43 then none
  else
    let session_id_len := data.getD 38 0
    let pos := 43 + session_id_len
    if data.length ≤ pos + 2 then none
    else
      let cipher_suites_len := data.getD pos 0 * 256 + data.getD (pos + 1) 0
      let pos := pos + 2 + cipher_suites_len
      if data.length ≤ pos + 1 then none
      else
        let compression_len := data.getD pos 0
        let pos := pos + 1 + compression_len
        if data.length ≤ pos + 2 then none
        else sniLoop data (pos + 2)

/-- The ASCII bytes of "example.com". -/
def exampleComBytes : List Nat :=
  [101, 120, 97, 109, 112, 108, 101, 46, 99, 111, 109]

/-- A minimal valid 72-byte TLS ClientHello whose SNI extension carries
host_name "example.com".  Its (legitimately arbitrary) random field is zero
except that the byte landing at buffer offset 38 is 1 — exactly the value
that makes the parser's fixed-offset session-id read line up with the true
layout (empty session id, so the correct skip is 1 byte for the length
field itself). -/
def helloAligned : List Nat :=
  [0x16, 0x03, 0x01, 0, 67,              -- TLS record header, length 67
   0x01, 0, 0, 63,                       -- handshake header: ClientHello, length 63
   0x03, 0x03,                           -- client version
   0, 0, 0, 0, 0, 0, 0, 0, 0, 0, 0, 0, 0, 0, 0, 0,
   0, 0, 0, 0, 0, 0, 0, 0, 0, 0, 0, 1,  -- 32-byte random (offset 38 is 1)
   0, 0, 0, 0,
   0,                                    -- session id length = 0
   0, 2, 0x13, 0x01,                     -- cipher suites: length 2, one suite
   1, 0,                                 -- compression: length 1, null
   0, 20,                                -- extensions total length 20
   0, 0,                                 -- extension type 0 = server_name
   0, 16,                                -- extension length 16
   0, 14,                                -- server name list length 14
   0,                                    -- name type 0 = host_name
   0, 11,                                -- host name length 11
   101, 120, 97, 109, 112, 108, 101, 46, 99, 111, 109]  -- "example.com"

/-- The same minimal valid ClientHello with an all-zero random — still a
perfectly legal encoding of an SNI "example.com" hello, since the random
field is arbitrary. -/
def helloZeroRandom : List Nat :=
  [0x16, 0x03, 0x01, 0, 67,
   0x01, 0, 0, 63,
   0x03, 0x03,
   0, 0, 0, 0, 0, 0, 0, 0, 0, 0, 0, 0, 0, 0, 0, 0,
   0, 0, 0, 0, 0, 0, 0, 0, 0, 0, 0, 0,
   0, 0, 0, 0,
   0,
   0, 2, 0x13, 0x01,
   1, 0,
   0, 20,
   0, 0,
   0, 16,
   0, 14,
   0,
   0, 11,
   101, 120, 97, 109, 112, 108, 101, 46, 99, 111, 109]

/-! ### Concrete states used by witnesses and counterexamples -/

/-- A hardcore session running from t=100 to t=200. -/
def demoSessionA : ActiveSession where
  id := "session_100"
  name := "Deep Work"
  start_time := 100
  end_time := 200
  hardcore := true
  session_type := SessionType.Manual

/-- A manager holding the active hardcore session, lock set. -/
def demoManagerHardcore : SessionManager where
  active_session := some demoSessionA
  pomodoro_state := PomodoroState.default
  is_hardcore_locked := true

/-- A non-hardcore session running from t=1 to t=601. -/
def demoSessionB : ActiveSession where
  id := "session_1"
  name := "First"
  start_time := 1
  end_time := 601
  hardcore := false
  session_type := SessionType.Manual

/-- A manager holding the active non-hardcore session. -/
def demoManagerActive : SessionManager where
  active_session := some demoSessionB
  pomodoro_state := PomodoroState.default
  is_hardcore_locked := false

/-- An empty store. -/
def demoDB : Database where
  blocked_sites := []
  blocked_apps := []
  sessions := []
  next_id := 1

/-- A scheduled-session rule row. -/
def demoStoredSession : StoredSession where
  id := 0
  name := "Evening"
  start_time := "18:00"
  end_time := "20:00"
  days := "Mon"
  hardcore := false
  enabled := true

/-- An app state whose hardcore lock is set. -/
def demoLockedState : AppState where
  db := demoDB
  session_manager := demoManagerHardcore

/-- The manager after `pomodoro_configure(2, 1, 2, 4)` and `pomodoro_start`,
as in the source's own `test_pomodoro_tick`. -/
def pomodoroDemo : SessionManager :=
  (SessionManager.new.pomodoro_configure 2 1 2 4).pomodoro_start


/-! ### Theorems: the enforcer whitelist invariant (claim C1) -/

lemma enforceLoop_whitelist (blocked_apps blocked_lower : List String)
    (ps killed : List String)
    (hk : ∀ n ∈ killed, ¬ isWhitelisted n) :
    ∀ n ∈ enforceLoop blocked_apps blocked_lower ps killed, ¬ isWhitelisted n := by
  induction ps generalizing killed with
  | nil => simpa [enforceLoop] using hk
  | cons p ps ih =>
      rw [enforceLoop]
      split
      · exact ih killed hk
      · split
        · rename_i hwl hmem
          cases hfind : blocked_apps.find? (fun a => strLower a == strLower p) with
          | none => simp only [hfind]; exact ih killed hk
          | some original =>
              simp only [hfind]
              split
              · exact ih killed hk
              · refine ih (killed ++ [original]) ?_
                intro n hn
                rcases List.mem_append.mp hn with h | h
                · exact hk n h
                · have horig : strLower original = strLower p := by
                    have := List.find?_some hfind
                    simpa using this
                  have hn' : n = original := by simpa using h
                  subst hn'
                  rintro ⟨w, hw, hwl'⟩
                  have : (SYSTEM_WHITELIST.any (fun w => strLower w == strLower p)) = true := by
                    rw [List.any_eq_true]
                    exact ⟨w, hw, by simp [hwl', horig]⟩
                  simp [this] at hwl
        · exact ih killed hk

/-- Claim C1: the result of `enforce_app_blocks` never contains a name in the
SYSTEM_WHITELIST (case-insensitive), for every process snapshot and every
blocked set — even if a whitelisted name such as "explorer.exe" appears in
the blocked set, it is never reported as terminated. -/
theorem C1_whitelist_invariant (processes blocked_apps : List String)
    (n : String) (h : n ∈ enforce_app_blocks processes blocked_apps) :
    ¬ isWhitelisted n := by
  simp only [enforce_app_blocks] at h
  split at h
  · simp at h
  · split at h
    · simp at h
    · exact enforceLoop_whitelist _ _ processes [] (by simp) n h

/-- Witness for C1 at a concrete input: with "explorer.exe" in the blocked
set and running, only "chrome.exe" is reported, and the theorem applies to
it. -/
theorem C1_whitelist_invariant_witness :
    ("chrome.exe" ∈ enforce_app_blocks ["explorer.exe", "chrome.exe"]
        ["explorer.exe", "chrome.exe"]) ∧
    ¬ isWhitelisted "chrome.exe" :=
  ⟨by decide,
   C1_whitelist_invariant ["explorer.exe", "chrome.exe"]
     ["explorer.exe", "chrome.exe"] "chrome.exe" (by decide)⟩

/-! ### Theorems: hardcore end_session semantics (claim C2) -/

/-- Claim C2: if the active session is hardcore and the current time has not
reached its end_time, `end_session` errors (the Rust early return leaves the
state unchanged); once the current time is at or past end_time it succeeds,
the active session becomes none and the hardcore lock is cleared. -/
theorem C2_hardcore_end_session (m : SessionManager) (sess : ActiveSession)
    (now : Int) (hact : m.active_session = some sess)
    (hhc : sess.hardcore = true) :
    (now < sess.end_time →
      m.end_session now =
        Except.error "Cannot end hardcore session before time expires") ∧
    (sess.end_time ≤ now →
      m.end_session now =
        Except.ok { m with active_session := none, is_hardcore_locked := false }) := by
  constructor
  · intro hlt
    simp [SessionManager.end_session, hact, hhc, hlt]
  · intro hge
    have hcond : ¬ (sess.hardcore = true ∧ now < sess.end_time) := by
      rintro ⟨-, hlt⟩
      omega
    simp only [SessionManager.end_session, hact]
    rw [if_neg hcond]

/-- Witness for C2 at concrete inputs: at t=150 ending the hardcore session
is refused; at t=250 it succeeds and clears the lock. -/
theorem C2_hardcore_end_session_witness :
    (demoManagerHardcore.end_session 150 =
      Except.error "Cannot end hardcore session before time expires") ∧
    (demoManagerHardcore.end_session 250 =
      Except.ok { demoManagerHardcore with
                    active_session := none, is_hardcore_locked := false }) :=
  ⟨(C2_hardcore_end_session demoManagerHardcore demoSessionA 150 rfl rfl).1
      (by decide),
   (C2_hardcore_end_session demoManagerHardcore demoSessionA 250 rfl rfl).2
      (by decide)⟩

/-! ### Theorems: hardcore lock gating of mutating commands (claim C3) -/

/-- Claim C3 counterexample: with the hardcore lock set, `pomodoro_configure`
is not refused — it mutates the Pomodoro state — and `add_session` also
succeeds rather than erroring, contradicting the claim that every listed mutating operation is
refused with an error while the lock is true. -/
theorem C3_counterexample :
    demoLockedState.session_manager.is_hardcore_locked = true ∧
    pomodoro_configure demoLockedState 10 5 15 4 ≠ demoLockedState ∧
    (pomodoro_configure demoLockedState 10 5 15 4).session_manager.pomodoro_state.work_duration = 10 ∧
    (add_session demoLockedState demoStoredSession).toOption ≠ none := by
  decide

/-- Claim C3 as amended: while the hardcore lock is true, the six blocklist
mutations and `pomodoro_start`/`pomodoro_pause`/`pomodoro_reset` are refused
with an error and leave the state unchanged, but `add_session`,
`delete_session` and `pomodoro_configure` carry no hardcore-lock guard in the
source: they succeed and mutate the corresponding state (and the internal
`pomodoro_tick` is likewise exempt). -/
theorem C3_hardcore_gating (st : AppState)
    (h : st.session_manager.is_hardcore_locked = true) :
    (∀ domain category, add_blocked_site st domain category =
      Except.error "Cannot modify block list during a hardcore session") ∧
    (∀ id enabled, toggle_blocked_site st id enabled =
      Except.error "Cannot modify block list during a hardcore session") ∧
    (∀ id, delete_blocked_site st id =
      Except.error "Cannot modify block list during a hardcore session") ∧
    (∀ name process_name category, add_blocked_app st name process_name category =
      Except.error "Cannot modify block list during a hardcore session") ∧
    (∀ id enabled, toggle_blocked_app st id enabled =
      Except.error "Cannot modify block list during a hardcore session") ∧
    (∀ id, delete_blocked_app st id =
      Except.error "Cannot modify block list during a hardcore session") ∧
    (pomodoro_start st =
      Except.error "Cannot control timer during a hardcore session") ∧
    (pomodoro_pause st =
      Except.error "Cannot control timer during a hardcore session") ∧
    (pomodoro_reset st =
      Except.error "Cannot control timer during a hardcore session") ∧
    (∀ s, add_session st s =
      Except.ok ({ st with db := (st.db.add_session s).1 }, (st.db.add_session s).2)) ∧
    (∀ id, delete_session st id =
      Except.ok { st with db := st.db.delete_session id }) ∧
    (∀ work short_break long_break sessions,
      pomodoro_configure st work short_break long_break sessions =
        { st with session_manager :=
            st.session_manager.pomodoro_configure work short_break long_break sessions }) := by
  refine ⟨?_, ?_, ?_, ?_, ?_, ?_, ?_, ?_, ?_, ?_, ?_, ?_⟩ <;>
    simp [add_blocked_site, toggle_blocked_site, delete_blocked_site,
          add_blocked_app, toggle_blocked_app, delete_blocked_app,
          pomodoro_start, pomodoro_pause, pomodoro_reset,
          add_session, delete_session, pomodoro_configure, h]

/-- Witness for C3 (amended) at the concrete locked state: a blocklist
mutation is refused while `add_session` goes through. -/
theorem C3_hardcore_gating_witness :
    (add_blocked_site demoLockedState "x.com" "social" =
      Except.error "Cannot modify block list during a hardcore session") ∧
    (add_session demoLockedState demoStoredSession =
      Except.ok ({ demoLockedState with
                    db := (demoLockedState.db.add_session demoStoredSession).1 },
                 (demoLockedState.db.add_session demoStoredSession).2)) := by
  have h := C3_hardcore_gating demoLockedState rfl
  exact ⟨h.1 "x.com" "social", h.2.2.2.2.2.2.2.2.2.1 demoStoredSession⟩

/-! ### Theorems: Pomodoro tick divergence (claim C7) -/

/-- Claim C7 evaluated on the code: after configuring `(2, 1, 2, 4)` and
starting, the first tick returns none, but the second tick ALSO returns none
(time_remaining goes 2 → 1 → 0 and the phase switch happens one tick later):
only the third tick returns `some Work`, after which the phase is `Break`.
The source's own test `test_pomodoro_tick` asserts the second tick returns
`Some(Work)`, so the code contradicts its own test. -/
theorem C7_tick_divergence :
    (pomodoroDemo.pomodoro_tick).2 = none ∧
    ((pomodoroDemo.pomodoro_tick).1.pomodoro_tick).2 = none ∧
    (((pomodoroDemo.pomodoro_tick).1.pomodoro_tick).1.pomodoro_tick).2 =
      some PomodoroPhase.Work ∧
    (((pomodoroDemo.pomodoro_tick).1.pomodoro_tick).1.pomodoro_tick).1.pomodoro_state.phase =
      PomodoroPhase.Break := by
  decide

/-! ### Theorems: start_session semantics (claim C8) -/

/-- Claim C8 counterexample: `start_session` has no NoSession guard — called
while `demoSessionB` is active it replaces the existing session, contradicting
the claim that an active session is never replaced. -/
theorem C8_counterexample :
    demoManagerActive.active_session = some demoSessionB ∧
    (demoManagerActive.start_session 700 "Second" 30 false).1.active_session ≠
      some demoSessionB := by
  decide

/-- Claim C8 as amended: `start_session` unconditionally installs the newly
built session — replacing any active one (the state holds at most one
session because the field is a single Option) — and the hardcore lock ends up
set when `hardcore` is true and unchanged otherwise. -/
theorem C8_start_session (m : SessionManager) (now : Int) (name : String)
    (duration_minutes : Int) (hardcore : Bool) :
    (m.start_session now name duration_minutes hardcore).1.active_session =
      some (m.start_session now name duration_minutes hardcore).2 ∧
    (m.start_session now name duration_minutes hardcore).2.hardcore = hardcore ∧
    (m.start_session now name duration_minutes hardcore).1.is_hardcore_locked =
      (hardcore || m.is_hardcore_locked) := by
  cases hardcore <;> simp [SessionManager.start_session]

/-! ### Theorems: end_session with no active session (claim C9) -/

/-- Claim C9: calling `end_session` when no session is active returns Ok,
leaves the active session as none, and unconditionally clears the hardcore
lock. -/
theorem C9_end_session_no_active (m : SessionManager) (now : Int)
    (h : m.active_session = none) :
    m.end_session now = Except.ok { m with is_hardcore_locked := false } := by
  cases m with
  | mk act pom lock =>
      simp only at h
      subst h
      simp [SessionManager.end_session]

/-- Witness for C9: ending on the fresh manager succeeds. -/
theorem C9_end_session_no_active_witness :
    SessionManager.new.end_session 0 =
      Except.ok { SessionManager.new with is_hardcore_locked := false } :=
  C9_end_session_no_active SessionManager.new 0 rfl

/-! ### Theorems: get_time_remaining (claim C10) -/

/-- Claim C10: `get_time_remaining` returns none exactly when no session is
active, and otherwise returns the maximum of (end_time - now) and 0, so the
returned remaining time is never negative. -/
theorem C10_time_remaining (m : SessionManager) (now : Int) :
    (m.get_time_remaining now = none ↔ m.active_session = none) ∧
    (∀ sess, m.active_session = some sess →
      m.get_time_remaining now = some (max (sess.end_time - now) 0)) ∧
    (∀ r, m.get_time_remaining now = some r → 0 ≤ r) := by
  cases hact : m.active_session with
  | none =>
      refine ⟨by simp [SessionManager.get_time_remaining, hact], ?_, ?_⟩
      · intro sess h
        cases h
      · intro r h
        simp [SessionManager.get_time_remaining, hact] at h
  | some s =>
      refine ⟨by simp [SessionManager.get_time_remaining, hact], ?_, ?_⟩
      · intro sess h
        injection h with h
        subst h
        simp [SessionManager.get_time_remaining, hact]
      · intro r h
        simp only [SessionManager.get_time_remaining, hact, Option.some.injEq] at h
        have hmax : (0 : Int) ≤ max (s.end_time - now) 0 := le_max_right _ _
        omega

/-- Witness for C10: on the active demo session at t=301, 300 seconds
remain. -/
theorem C10_time_remaining_witness :
    demoManagerActive.get_time_remaining 301 =
      some (max (demoSessionB.end_time - 301) 0) :=
  (C10_time_remaining demoManagerActive 301).2.1 demoSessionB rfl

/-! ### String-search lemmas for the hosts-file synchronizer -/

lemma leadsList_iff {n h : List Char} :
    leadsList n h = true ↔ ∃ t, h = n ++ t := by
  induction n generalizing h with
  | nil => simp [leadsList]
  | cons a as ih =>
      cases h with
      | nil =>
          simp [leadsList]
      | cons b bs =>
          simp only [leadsList, Bool.and_eq_true, beq_iff_eq]
          constructor
          · rintro ⟨rfl, hl⟩
            rcases ih.mp hl with ⟨t, rfl⟩
            exact ⟨t, rfl⟩
          · rintro ⟨t, ht⟩
            rw [List.cons_append] at ht
            injection ht with h1 h2
            exact ⟨h1.symm, ih.mpr ⟨t, h2⟩⟩

lemma leadsList_refl (n : List Char) : leadsList n n = true :=
  leadsList_iff.mpr ⟨[], by simp⟩

lemma leadsList_self_append (n t : List Char) : leadsList n (n ++ t) = true :=
  leadsList_iff.mpr ⟨t, rfl⟩

lemma strFind_of_leads {h n : List Char} (hl : leadsList n h = true) :
    strFind h n = some 0 := by
  cases h with
  | nil => simp [strFind, hl]
  | cons c t => simp [strFind, hl]

lemma strFind_cons_none {x : Char} {t n : List Char}
    (h : strFind (x :: t) n = none) :
    leadsList n (x :: t) = false ∧ strFind t n = none := by
  cases hl : leadsList n (x :: t) with
  | true => rw [strFind, hl] at h; simp at h
  | false =>
      rw [strFind, hl] at h
      simp only [Bool.false_eq_true, if_false, Option.map_eq_none'] at h
      exact ⟨rfl, h⟩

lemma leadsList_append {n u v : List Char} :
    leadsList n (u ++ v) = true ↔
      leadsList n u = true ∨ ∃ u', n = u ++ u' ∧ leadsList u' v = true := by
  constructor
  · intro h
    rcases leadsList_iff.mp h with ⟨t, ht⟩
    rcases List.append_eq_append_iff.mp ht.symm with ⟨a', ha1, _⟩ | ⟨c', hc1, hc2⟩
    · exact Or.inl (leadsList_iff.mpr ⟨a', ha1⟩)
    · exact Or.inr ⟨c', hc1, leadsList_iff.mpr ⟨t, hc2⟩⟩
  · rintro (h | ⟨u', rfl, h⟩)
    · rcases leadsList_iff.mp h with ⟨s, rfl⟩
      exact leadsList_iff.mpr ⟨s ++ v, by simp⟩
    · rcases leadsList_iff.mp h with ⟨s, rfl⟩
      exact leadsList_iff.mpr ⟨s, by simp⟩

lemma strFind_append_split {a b n : List Char}
    (hnone : strFind a n = none)
    (hcross : ∀ i u', i < a.length → u' ≠ [] → n = a.drop i ++ u' →
      leadsList u' b = false) :
    strFind (a ++ b) n = (strFind b n).map (fun i => i + a.length) := by
  induction a with
  | nil =>
      simp only [List.nil_append, List.length_nil]
      cases strFind b n <;> simp
  | cons x t ih =>
      obtain ⟨hlead, htail⟩ := strFind_cons_none hnone
      have hx : leadsList n ((x :: t) ++ b) = false := by
        cases hlb : leadsList n ((x :: t) ++ b) with
        | false => rfl
        | true =>
            exfalso
            rcases leadsList_append.mp hlb with hl | ⟨u', hn, hu'⟩
            · rw [hl] at hlead; cases hlead
            · cases u' with
              | nil =>
                  rw [List.append_nil] at hn
                  rw [hn, leadsList_refl] at hlead
                  cases hlead
              | cons m u'' =>
                  have hfalse := hcross 0 (m :: u'') (by simp) (by simp)
                    (by simpa using hn)
                  rw [hfalse] at hu'
                  cases hu'
      have hcross' : ∀ i u', i < t.length → u' ≠ [] → n = t.drop i ++ u' →
          leadsList u' b = false := fun i u' hi hne hn =>
        hcross (i + 1) u' (by simpa using hi) hne (by simpa using hn)
      have hrec := ih htail hcross'
      rw [List.cons_append, strFind]
      rw [List.cons_append] at hx
      rw [hx]
      simp only [Bool.false_eq_true, if_false, hrec]
      cases strFind b n with
      | none => rfl
      | some v =>
          simp only [Option.map_some', Option.some.injEq, List.length_cons]
          omega

lemma endsWithNl_cons_cons (x y : Char) (w : List Char) :
    endsWithNl (x :: y :: w) = endsWithNl (y :: w) := rfl

lemma endsWithNl_append {u v : List Char} (hv : v ≠ []) :
    endsWithNl (u ++ v) = endsWithNl v := by
  induction u with
  | nil => simp
  | cons x u ih =>
      cases hu : u ++ v with
      | nil => exact absurd (List.append_eq_nil.mp hu).2 hv
      | cons y w =>
          rw [List.cons_append, hu, endsWithNl_cons_cons, ← hu, ih]

lemma endsWithNl_mem {l : List Char} (h : endsWithNl l = true) : '\n' ∈ l := by
  induction l with
  | nil => simp [endsWithNl] at h
  | cons x t ih =>
      cases t with
      | nil =>
          rw [endsWithNl] at h
          have : x = '\n' := by simpa using h
          simp [this]
      | cons y w =>
          rw [endsWithNl_cons_cons] at h
          exact List.mem_cons_of_mem _ (ih h)

lemma endsWithNl_drop {l : List Char} {i : Nat} (h : endsWithNl l = true)
    (hi : i < l.length) : endsWithNl (l.drop i) = true := by
  induction l generalizing i with
  | nil => simp at hi
  | cons x t ih =>
      cases i with
      | zero => simpa using h
      | succ j =>
          have hj : j < t.length := by simpa using hi
          have ht : endsWithNl t = true := by
            cases t with
            | nil => simp at hj
            | cons y w => rw [endsWithNl_cons_cons] at h; exact h
          simpa using ih ht hj

lemma strFind_append_of_no_nl {a b n : List Char}
    (hn : '\n' ∉ n) (hend : endsWithNl a = true)
    (hnone : strFind a n = none) :
    strFind (a ++ b) n = (strFind b n).map (fun i => i + a.length) := by
  refine strFind_append_split hnone ?_
  intro i u' hi _ hnu
  exfalso
  apply hn
  rw [hnu]
  exact List.mem_append_left _ (endsWithNl_mem (endsWithNl_drop hend hi))

lemma strFind_all_nl {b n : List Char} (hb : ∀ c ∈ b, c = '\n')
    (hn : '\n' ∉ n) (hne : n ≠ []) : strFind b n = none := by
  induction b with
  | nil =>
      cases n with
      | nil => exact absurd rfl hne
      | cons m n' => simp [strFind, leadsList]
  | cons x b' ih =>
      have hx : x = '\n' := hb x (by simp)
      have hlead : leadsList n (x :: b') = false := by
        cases n with
        | nil => exact absurd rfl hne
        | cons m n'' =>
            have hm : (m == x) = false := by
              cases hmx : (m == x) with
              | false => rfl
              | true =>
                  exfalso
                  apply hn
                  have hmx' : m = x := by simpa using hmx
                  rw [hmx', hx]
                  simp
            simp [leadsList, hm]
      have hb' : ∀ c ∈ b', c = '\n' := fun c hc => hb c (by simp [hc])
      simp [strFind, hlead, ih hb']

lemma strFind_append_all_nl {c b n : List Char} (hb : ∀ ch ∈ b, ch = '\n')
    (hn : '\n' ∉ n) (hne : n ≠ []) (hc : strFind c n = none) :
    strFind (c ++ b) n = none := by
  have hcross : ∀ i u', i < c.length → u' ≠ [] → n = c.drop i ++ u' →
      leadsList u' b = false := by
    intro i u' _ hune hnu
    cases u' with
    | nil => exact absurd rfl hune
    | cons m u'' =>
        cases hlb : leadsList (m :: u'') b with
        | false => rfl
        | true =>
            exfalso
            rcases leadsList_iff.mp hlb with ⟨s, hs⟩
            have hmb : m ∈ b := by rw [hs]; simp
            have hmn : m = '\n' := hb m hmb
            apply hn
            rw [hnu, hmn]
            exact List.mem_append_right _ (by simp)
  rw [strFind_append_split hc hcross, strFind_all_nl hb hn hne]
  rfl

lemma strFind_none_of_head_notMem {h n' : List Char} {ch : Char}
    (hmem : ch ∉ h) : strFind h (ch :: n') = none := by
  induction h with
  | nil => simp [strFind, leadsList]
  | cons x t ih =>
      have hx : (ch == x) = false := by
        cases hcx : (ch == x) with
        | false => rfl
        | true =>
            exfalso
            have : ch = x := by simpa using hcx
            exact hmem (this ▸ List.mem_cons_self x t)
      have ht : ch ∉ t := fun hc => hmem (List.mem_cons_of_mem _ hc)
      simp [strFind, leadsList, hx, ih ht]

/-! ### Structure lemmas for the generated fence block -/

lemma entriesFor_concat {ds : List (List Char)} (h : ds ≠ []) :
    ∃ pre, entriesFor ds = pre ++ ['\n'] := by
  induction ds with
  | nil => exact absurd rfl h
  | cons d ds ih =>
      by_cases hds : ds = []
      · subst hds
        refine ⟨"127.0.0.1 ".toList ++ d ++ ['\n'] ++
          "127.0.0.1 www.".toList ++ d ++ ['\n'] ++
          "::1 ".toList ++ d ++ ['\n'] ++
          "::1 www.".toList ++ d, ?_⟩
        simp [entriesFor, List.append_assoc]
      · rcases ih hds with ⟨pre, hp⟩
        refine ⟨"127.0.0.1 ".toList ++ d ++ ['\n'] ++
          "127.0.0.1 www.".toList ++ d ++ ['\n'] ++
          "::1 ".toList ++ d ++ ['\n'] ++
          "::1 www.".toList ++ d ++ ['\n'] ++ pre, ?_⟩
        rw [entriesFor, hp]
        simp [List.append_assoc]

lemma entriesFor_ne_nil {ds : List (List Char)} (h : ds ≠ []) :
    entriesFor ds ≠ [] := by
  rcases entriesFor_concat h with ⟨pre, hp⟩
  rw [hp]
  simp

lemma entriesFor_endsNl {ds : List (List Char)} (h : ds ≠ []) :
    endsWithNl (entriesFor ds) = true := by
  rcases entriesFor_concat h with ⟨pre, hp⟩
  rw [hp, endsWithNl_append (by simp)]
  rfl

lemma entriesFor_no_hash {ds : List (List Char)}
    (hdom : ∀ d ∈ ds, ∀ ch ∈ d, ch ≠ '#') :
    ∀ ch ∈ entriesFor ds, ch ≠ '#' := by
  induction ds with
  | nil => simp [entriesFor]
  | cons d ds ih =>
      have hd : ∀ ch ∈ d, ch ≠ '#' := hdom d (by simp)
      have hds : ∀ d' ∈ ds, ∀ ch ∈ d', ch ≠ '#' :=
        fun d' h' => hdom d' (List.mem_cons_of_mem _ h')
      rw [entriesFor]
      simp only [List.forall_mem_append]
      repeat' apply And.intro
      all_goals first
        | exact hd
        | exact ih hds
        | decide

/-! ### The hosts-file sync computation (claims C4 and C5) -/

lemma update_no_section {c : List Char} {ds : List (List Char)}
    (hS : strFind c BASTION_MARKER_START = none) :
    update_blocked_websites c ds = some (appendBlock c ds) := by
  unfold update_blocked_websites get_bastion_section
  rw [hS]

lemma appendBlock_ne_empty {c : List Char} {ds : List (List Char)}
    (h : ds ≠ []) :
    appendBlock c ds =
      (c ++ ['\n', '\n']) ++ (generate_block_entries ds ++ ['\n']) := by
  unfold appendBlock
  rw [if_neg (by simpa using h)]
  simp [List.append_assoc]

lemma strFind_fence_START {c : List Char} {ds : List (List Char)}
    (hS : strFind c BASTION_MARKER_START = none) :
    strFind ((c ++ ['\n', '\n']) ++ (generate_block_entries ds ++ ['\n']))
      BASTION_MARKER_START = some (c.length + 2) := by
  have hA : strFind (c ++ ['\n', '\n']) BASTION_MARKER_START = none :=
    strFind_append_all_nl (by decide) (by decide) (by decide) hS
  have hends : endsWithNl (c ++ ['\n', '\n']) = true := by
    rw [endsWithNl_append (by simp)]
    rfl
  rw [strFind_append_of_no_nl (by decide) hends hA]
  have hsplit : generate_block_entries ds ++ ['\n'] =
      BASTION_MARKER_START ++
        ((['\n'] ++ (entriesFor ds ++ BASTION_MARKER_END)) ++ ['\n']) := by
    simp [generate_block_entries, List.append_assoc]
  rw [hsplit, strFind_of_leads (leadsList_self_append _ _)]
  simp

lemma strFind_entries_END {ds : List (List Char)}
    (hdom : ∀ d ∈ ds, ∀ ch ∈ d, ch ≠ '#') :
    strFind (entriesFor ds) BASTION_MARKER_END = none := by
  have hh : BASTION_MARKER_END = '#' :: " === BASTION BLOCK END ===".toList := by
    decide
  rw [hh]
  apply strFind_none_of_head_notMem
  intro hc
  exact entriesFor_no_hash hdom '#' hc rfl

lemma strFind_fence_END {c : List Char} {ds : List (List Char)}
    (hE : strFind c BASTION_MARKER_END = none)
    (hds : ds ≠ []) (hdom : ∀ d ∈ ds, ∀ ch ∈ d, ch ≠ '#') :
    strFind ((c ++ ['\n', '\n']) ++ (generate_block_entries ds ++ ['\n']))
      BASTION_MARKER_END =
      some (c.length + 2 +
        (BASTION_MARKER_START.length + 1 + (entriesFor ds).length)) := by
  have hA : strFind (c ++ ['\n', '\n']) BASTION_MARKER_END = none :=
    strFind_append_all_nl (by decide) (by decide) (by decide) hE
  have hends : endsWithNl (c ++ ['\n', '\n']) = true := by
    rw [endsWithNl_append (by simp)]
    rfl
  rw [strFind_append_of_no_nl (by decide) hends hA]
  have hsplit : generate_block_entries ds ++ ['\n'] =
      ((BASTION_MARKER_START ++ ['\n']) ++ entriesFor ds) ++
        (BASTION_MARKER_END ++ ['\n']) := by
    simp [generate_block_entries, List.append_assoc]
  rw [hsplit]
  have hA2a : strFind (BASTION_MARKER_START ++ ['\n']) BASTION_MARKER_END =
      none := by decide
  have hA2 : strFind ((BASTION_MARKER_START ++ ['\n']) ++ entriesFor ds)
      BASTION_MARKER_END = none := by
    rw [strFind_append_of_no_nl (by decide) (by decide) hA2a,
      strFind_entries_END hdom]
    rfl
  have hendsA2 : endsWithNl ((BASTION_MARKER_START ++ ['\n']) ++ entriesFor ds) =
      true := by
    rw [endsWithNl_append (entriesFor_ne_nil hds)]
    exact entriesFor_endsNl hds
  rw [strFind_append_of_no_nl (by decide) hendsA2 hA2,
    strFind_of_leads (leadsList_self_append _ _)]
  simp [List.length_append]
  omega

lemma get_section_fence {c : List Char} {ds : List (List Char)}
    (hS : strFind c BASTION_MARKER_START = none)
    (hE : strFind c BASTION_MARKER_END = none)
    (hds : ds ≠ []) (hdom : ∀ d ∈ ds, ∀ ch ∈ d, ch ≠ '#') :
    get_bastion_section
        ((c ++ ['\n', '\n']) ++ (generate_block_entries ds ++ ['\n'])) =
      some (c.length + 2, c.length + 2 + (generate_block_entries ds).length) := by
  unfold get_bastion_section
  rw [strFind_fence_START hS, strFind_fence_END hE hds hdom]
  have hlen : (generate_block_entries ds).length =
      BASTION_MARKER_START.length + 1 + (entriesFor ds).length +
        BASTION_MARKER_END.length := by
    simp [generate_block_entries, List.length_append]
    omega
  simp only [Option.some.injEq, Prod.mk.injEq, true_and]
  omega

lemma excise_fence {c : List Char} {ds : List (List Char)} :
    ((c ++ ['\n', '\n']) ++ (generate_block_entries ds ++ ['\n'])).take
        (c.length + 2) ++
      ((c ++ ['\n', '\n']) ++ (generate_block_entries ds ++ ['\n'])).drop
        (c.length + 2 + (generate_block_entries ds).length) =
      c ++ ['\n', '\n', '\n'] := by
  have h1 : ((c ++ ['\n', '\n']) ++ (generate_block_entries ds ++ ['\n'])).take
      (c.length + 2) = c ++ ['\n', '\n'] :=
    List.take_left' (by simp)
  have hassoc : (c ++ ['\n', '\n']) ++ (generate_block_entries ds ++ ['\n']) =
      ((c ++ ['\n', '\n']) ++ generate_block_entries ds) ++ ['\n'] := by
    simp [List.append_assoc]
  have h2 : ((c ++ ['\n', '\n']) ++ (generate_block_entries ds ++ ['\n'])).drop
      (c.length + 2 + (generate_block_entries ds).length) = ['\n'] := by
    rw [hassoc]
    exact List.drop_left'
      (by simp only [List.length_append, List.length_cons, List.length_nil])
  rw [h1, h2]
  simp

/-- Claim C4 as amended: the sync is NOT byte-idempotent.  For any starting
content free of marker occurrences and any non-empty list of '#'-free
domains, the first run writes `c + "\n\n" + fence + "\n"`, and the second
run with the same list writes exactly what a first run over
`c + "\n\n\n"` would: the fence is regenerated identically but three
newline characters accumulate in front of it on every run (the excision
drops `[start marker .. end marker]` but keeps the `"\n\n"` lead-in and the
trailing `"\n"` the previous run added). -/
theorem C4_sync_newline_drift {c : List Char} {ds : List (List Char)}
    (hS : strFind c BASTION_MARKER_START = none)
    (hE : strFind c BASTION_MARKER_END = none)
    (hds : ds ≠ []) (hdom : ∀ d ∈ ds, ∀ ch ∈ d, ch ≠ '#') :
    update_blocked_websites c ds = some (appendBlock c ds) ∧
    update_blocked_websites (appendBlock c ds) ds =
      some (appendBlock (c ++ ['\n', '\n', '\n']) ds) := by
  refine ⟨update_no_section hS, ?_⟩
  rw [appendBlock_ne_empty hds]
  unfold update_blocked_websites
  rw [get_section_fence hS hE hds hdom]
  simp only [ge_iff_le, le_add_iff_nonneg_right, Nat.zero_le, if_pos,
    Option.some.injEq]
  rw [excise_fence]

/-- Claim C4 counterexample: the sync is not idempotent as claimed — on the
empty starting content with domain list ["a"], running it twice produces
different content from running it once (three extra newline bytes). -/
theorem C4_counterexample :
    ((update_blocked_websites [] [['a']]).bind
        (fun r => update_blocked_websites r [['a']])) ≠
      update_blocked_websites [] [['a']] := by
  decide

/-- Witness for C4 (amended) at the concrete input `c = []`,
`ds = ["a"]`. -/
theorem C4_sync_newline_drift_witness :
    update_blocked_websites [] [['a']] = some (appendBlock [] [['a']]) ∧
    update_blocked_websites (appendBlock [] [['a']]) [['a']] =
      some (appendBlock ([] ++ ['\n', '\n', '\n']) [['a']]) :=
  C4_sync_newline_drift (by decide) (by decide) (by decide) (by decide)

/-- Claim C5 as amended: syncing a non-empty list and then the empty list
does NOT restore the file byte-exactly — it removes the fence completely and
keeps the original content untouched as a prefix, but leaves a residue of
exactly three newline characters appended to it (the `"\n\n"` lead-in and
the fence's trailing `"\n"` survive the excision). -/
theorem C5_roundtrip_residue {c : List Char} {ds : List (List Char)}
    (hS : strFind c BASTION_MARKER_START = none)
    (hE : strFind c BASTION_MARKER_END = none)
    (hds : ds ≠ []) (hdom : ∀ d ∈ ds, ∀ ch ∈ d, ch ≠ '#') :
    update_blocked_websites c ds = some (appendBlock c ds) ∧
    update_blocked_websites (appendBlock c ds) [] =
      some (c ++ ['\n', '\n', '\n']) := by
  refine ⟨update_no_section hS, ?_⟩
  rw [appendBlock_ne_empty hds]
  unfold update_blocked_websites
  rw [get_section_fence hS hE hds hdom]
  simp only [ge_iff_le, le_add_iff_nonneg_right, Nat.zero_le, if_pos,
    Option.some.injEq]
  rw [excise_fence]
  simp [appendBlock]

/-- Claim C5 counterexample: starting from content "x" (no fence), syncing
["a"] and then [] yields "x\n\n\n", not the original "x". -/
theorem C5_counterexample :
    ((update_blocked_websites ['x'] [['a']]).bind
        (fun r => update_blocked_websites r [])) ≠ some ['x'] := by
  decide

/-- Witness for C5 (amended) at the concrete input `c = "x"`,
`ds = ["a"]`. -/
theorem C5_roundtrip_residue_witness :
    update_blocked_websites ['x'] [['a']] = some (appendBlock ['x'] [['a']]) ∧
    update_blocked_websites (appendBlock ['x'] [['a']]) [] =
      some (['x'] ++ ['\n', '\n', '\n']) :=
  C5_roundtrip_residue (by decide) (by decide) (by decide) (by decide)

/-! ### The SNI extractor (claim C6) -/

/-- Claim C6 counterexample: `helloZeroRandom` is a minimal valid TLS
ClientHello whose SNI extension carries host_name "example.com" (its random
field is all zeros, which the TLS format permits), yet the parser returns no
hostname: the fixed-offset read of the session-id length at index 38 lands
inside the random field, so the parser misaligns and walks past the SNI
extension.  This refutes the claim for arbitrary valid ClientHello
encodings. -/
theorem C6_counterexample :
    parse_sni helloZeroRandom = none ∧
    parse_sni helloZeroRandom ≠ some exampleComBytes := by
  have h0 : parse_sni helloZeroRandom = sniLoop helloZeroRandom 50 := rfl
  have glen : helloZeroRandom.length = 72 := rfl
  have g50 : helloZeroRandom.getD 50 0 = 0 := rfl
  have g51 : helloZeroRandom.getD 51 0 = 20 := rfl
  have g52 : helloZeroRandom.getD 52 0 = 0 := rfl
  have g53 : helloZeroRandom.getD 53 0 = 0 := rfl
  have g54 : helloZeroRandom.getD 54 0 = 0 := rfl
  have g55 : helloZeroRandom.getD 55 0 = 16 := rfl
  have g56 : helloZeroRandom.getD 56 0 = 0 := rfl
  have g57 : helloZeroRandom.getD 57 0 = 14 := rfl
  have hnone : parse_sni helloZeroRandom = none := by
    rw [h0, sniLoop.eq_def]
    simp only [glen, g50, g51, g52, g53, g54, g55]
    norm_num
    rw [sniLoop.eq_def]
    simp only [glen, g54, g55, g56, g57]
    norm_num
    rw [sniLoop.eq_def]
    simp only [glen]
    norm_num
  exact ⟨hnone, by rw [hnone]; intro hc; cases hc⟩

/-- Claim C6 as amended: the parser does extract "example.com" from a
minimal valid ClientHello whose random byte at buffer offset 38 equals the
session-id length plus one (making the fixed-offset session-id read line up
— `helloAligned` carries 1 there over an empty session id); and for every
buffer shorter than 43 bytes it returns no hostname without failing. -/
theorem C6_sni_extraction :
    parse_sni helloAligned = some exampleComBytes ∧
    ∀ data : List Nat, data.length < 43 → parse_sni data = none := by
  constructor
  · have h0 : parse_sni helloAligned = sniLoop helloAligned 52 := rfl
    have glen : helloAligned.length = 72 := rfl
    have g52 : helloAligned.getD 52 0 = 0 := rfl
    have g53 : helloAligned.getD 53 0 = 0 := rfl
    have g58 : helloAligned.getD 58 0 = 0 := rfl
    have g59 : helloAligned.getD 59 0 = 0 := rfl
    have g60 : helloAligned.getD 60 0 = 11 := rfl
    rw [h0, sniLoop.eq_def]
    simp only [glen, g52, g53, g58, g59, g60]
    norm_num
    decide
  · intro data h
    simp [parse_sni, h]

/-- Witness for C6 (amended) at a concrete short buffer: the empty buffer is
shorter than 43 bytes and yields no hostname. -/
theorem C6_sni_extraction_witness :
    (([] : List Nat).length < 43) ∧ parse_sni [] = none :=
  ⟨by decide, C6_sni_extraction.2 [] (by decide)⟩

end Bastion
